import Mathlib

/-!
Verification of the IAM_USER_NO_SERVICE_SPECIFIC_CREDENTIALS config rule
(src/python-rdklib/IAM_USER_NO_SERVICE_SPECIFIC_CREDENTIALS/IAM_USER_NO_SERVICE_SPECIFIC_CREDENTIALS.py).

Shallow embedding conventions:
- The boto3 iam client is modelled as a function from the exact list of
  keyword arguments passed to list_service_specific_credentials to an
  Except-wrapped page; a keyword argument appears in the list exactly when
  the Python call site passes it, so the "omit unset parameters" behaviour
  of get_credentials_for_user is directly observable.
- Python exceptions are modelled as Except.error with a String payload.
- The unbounded while-True pagination loop of evaluate_user is modelled
  with a fuel parameter; the outer Option is none exactly when fuel runs
  out, which never corresponds to a behaviour of the source program.
- evaluate_user additionally returns the trace of outbound requests it
  made, in order, so that the call-count properties can be stated.
- The rule parameters dict is modelled as an association list; the user
  paginator is modelled as the list of pages it would yield, each page
  either a list of users or the error raised while fetching that page.
-/

namespace IamRule

def RESOURCE_TYPE : String := "AWS::IAM::User"

inductive ComplianceType
  | COMPLIANT
  | NON_COMPLIANT
deriving DecidableEq

/-- One evaluation record, as built by rdklib.Evaluation in the source.
The last field holds the human-readable annotation string. -/
structure Evaluation where
  complianceType : ComplianceType
  resourceId : String
  resourceType : String
  annot : String
deriving DecidableEq

/-- One service-specific credential as returned by the API; the source
only reads the Status and ServiceSpecificCredentialId keys. -/
structure Cred where
  Status : String
  ServiceSpecificCredentialId : String
deriving DecidableEq

/-- One response of list_service_specific_credentials.  IsTruncated and
Marker are Option because those keys may be absent from the response
dict (the source tests key membership for IsTruncated). -/
structure Page where
  ServiceSpecificCredentials : List Cred
  IsTruncated : Option Bool
  Marker : Option String
deriving DecidableEq

/-- A keyword argument actually passed to the outbound
list_service_specific_credentials call. -/
inductive KwArg
  | UserName (v : String)
  | ServiceName (v : String)
  | Marker (v : String)
deriving DecidableEq

/-- The outbound call payload: the list of keyword arguments passed. -/
abbrev Request := List KwArg

/-- The iam client: maps an outbound request to a page or an error. -/
abbrev Client := Request → Except String Page

/-- The request that get_credentials_for_user sends for given optional
service_name and marker, mirroring the four branches of the source:
an argument is included exactly when its value is not None. -/
def build_request (user_name : String) (service_name marker : Option String) : Request :=
  match service_name, marker with
  | none, none => [KwArg.UserName user_name]
  | none, some m => [KwArg.UserName user_name, KwArg.Marker m]
  | some s, none => [KwArg.UserName user_name, KwArg.ServiceName s]
  | some s, some m => [KwArg.UserName user_name, KwArg.ServiceName s, KwArg.Marker m]

/-- Embedding of get_credentials_for_user: branches on service_name and
marker being None, and omits each keyword argument that is None. -/
def get_credentials_for_user (iam_client : Client) (user_name : String)
    (service_name marker : Option String) : Except String Page :=
  match service_name, marker with
  | none, none => iam_client [KwArg.UserName user_name]
  | none, some m => iam_client [KwArg.UserName user_name, KwArg.Marker m]
  | some s, none => iam_client [KwArg.UserName user_name, KwArg.ServiceName s]
  | some s, some m => iam_client [KwArg.UserName user_name, KwArg.ServiceName s, KwArg.Marker m]

/-- The inner for-loop of evaluate_user: the first credential whose
Status equals Active, scanning in returned order. -/
def findActive : List Cred → Option Cred
  | [] => none
  | c :: cs => if c.Status = "Active" then some c else findActive cs

/-- The NON_COMPLIANT evaluation built when an active credential is found. -/
def activeCredEvaluation (user_id cred_id : String) : Evaluation :=
  { complianceType := ComplianceType.NON_COMPLIANT
    resourceId := user_id
    resourceType := RESOURCE_TYPE
    annot := "Active service specific credential found: " ++ cred_id }

/-- The COMPLIANT evaluation built when the loop ends without a match. -/
def noActiveEvaluation (user_id : String) : Evaluation :=
  { complianceType := ComplianceType.COMPLIANT
    resourceId := user_id
    resourceType := RESOURCE_TYPE
    annot := "No active ServiceSpecific credentials found" }

/-- The while-True pagination loop of evaluate_user, started at an
arbitrary current marker, with fuel bounding the number of iterations.
Returns the result (none on fuel exhaustion, which the source cannot
exhibit) together with the ordered trace of outbound requests made.
Accessing the absent Marker key of a truncated page raises a KeyError,
modelled as an Except.error like any other exception. -/
def evaluate_user_from (iam_client : Client) (user_name user_id : String)
    (service_name : Option String) :
    Nat → Option String → Option (Except String Evaluation) × List Request
  | 0, _ => (none, [])
  | fuel + 1, marker =>
    let req := build_request user_name service_name marker
    match get_credentials_for_user iam_client user_name service_name marker with
    | Except.error e => (some (Except.error e), [req])
    | Except.ok credentials =>
      match findActive credentials.ServiceSpecificCredentials with
      | some cred =>
        (some (Except.ok (activeCredEvaluation user_id cred.ServiceSpecificCredentialId)), [req])
      | none =>
        if credentials.IsTruncated = some true then
          match credentials.Marker with
          | some m =>
            let r := evaluate_user_from iam_client user_name user_id service_name fuel (some m)
            (r.fst, req :: r.snd)
          | none => (some (Except.error "KeyError: Marker"), [req])
        else
          (some (Except.ok (noActiveEvaluation user_id)), [req])

/-- Embedding of evaluate_user: the loop started with marker = None. -/
def evaluate_user (iam_client : Client) (user_name user_id : String)
    (service_name : Option String) (fuel : Nat) : Option (Except String Evaluation) :=
  (evaluate_user_from iam_client user_name user_id service_name fuel none).fst

/-- The trace of outbound requests evaluate_user makes. -/
def evaluate_user_calls (iam_client : Client) (user_name user_id : String)
    (service_name : Option String) (fuel : Nat) : List Request :=
  (evaluate_user_from iam_client user_name user_id service_name fuel none).snd

/-- Embedding of handle_credential_check_error: the synthesized
NON_COMPLIANT evaluation for a user whose credential check raised. -/
def handle_credential_check_error (e : String) (user_id : String) : Evaluation :=
  { complianceType := ComplianceType.NON_COMPLIANT
    resourceId := user_id
    resourceType := RESOURCE_TYPE
    annot := "Encountered error checking credentials. Check custom rule lambda logs" }

/-- One IAM user record; the source reads the UserId and UserName keys. -/
structure User where
  UserId : String
  UserName : String
deriving DecidableEq

/-- The inner per-user loop of evaluate_periodic over one page of users:
each user is evaluated inside a try/except boundary; an exception is
converted by handle_credential_check_error and the loop continues. -/
def process_users (iam_client : Client) (service_name : Option String) (fuel : Nat) :
    List User → Option (List Evaluation)
  | [] => some []
  | u :: us =>
    match evaluate_user iam_client u.UserName u.UserId service_name fuel with
    | none => none
    | some (Except.ok ev) =>
      (process_users iam_client service_name fuel us).map (fun rest => ev :: rest)
    | some (Except.error e) =>
      (process_users iam_client service_name fuel us).map
        (fun rest => handle_credential_check_error e u.UserId :: rest)

/-- The outer loop of evaluate_periodic over the pages yielded by the
list_users paginator: a page that raises aborts the whole run with that
error (the outer try/except re-raises), discarding all evaluations. -/
def evaluate_periodic_pages (iam_client : Client) (service_name : Option String) (fuel : Nat) :
    List (Except String (List User)) → Option (Except String (List Evaluation))
  | [] => some (Except.ok [])
  | Except.error e :: _ => some (Except.error e)
  | Except.ok users :: pages =>
    match process_users iam_client service_name fuel users with
    | none => none
    | some evs =>
      match evaluate_periodic_pages iam_client service_name fuel pages with
      | none => none
      | some (Except.error e) => some (Except.error e)
      | some (Except.ok rest) => some (Except.ok (evs ++ rest))

/-- The ServiceName extraction of evaluate_periodic: the value under the
ServiceName key if that key is present, else None. -/
def extract_service_name (valid_rule_parameters : List (String × String)) : Option String :=
  valid_rule_parameters.lookup "ServiceName"

/-- Embedding of evaluate_periodic: extract the optional ServiceName
parameter, then walk the user pages accumulating one evaluation per
user; Except.error is a re-raised enumeration failure. -/
def evaluate_periodic (valid_rule_parameters : List (String × String)) (iam_client : Client)
    (user_pages : List (Except String (List User))) (fuel : Nat) :
    Option (Except String (List Evaluation)) :=
  evaluate_periodic_pages iam_client (extract_service_name valid_rule_parameters) fuel user_pages

/-- The users actually enumerated before any enumeration failure. -/
def enumerated_principals : List (Except String (List User)) → List User
  | [] => []
  | Except.ok users :: pages => users ++ enumerated_principals pages
  | Except.error _ :: _ => []

/-- get_credentials_for_user always sends exactly build_request. -/
theorem get_credentials_eq_build (iam_client : Client) (user_name : String)
    (service_name marker : Option String) :
    get_credentials_for_user iam_client user_name service_name marker =
      iam_client (build_request user_name service_name marker) := by
  cases service_name <;> cases marker <;> rfl

theorem findActive_split (pre post : List Cred) (cred : Cred)
    (hpre : ∀ c ∈ pre, c.Status ≠ "Active") (hcred : cred.Status = "Active") :
    findActive (pre ++ cred :: post) = some cred := by
  induction pre with
  | nil => simp [findActive, hcred]
  | cons c cs ih =>
    have hc : c.Status ≠ "Active" := hpre c (List.mem_cons_self c cs)
    simp only [List.cons_append, findActive, if_neg hc]
    exact ih fun x hx => hpre x (List.mem_cons_of_mem c hx)

theorem findActive_eq_none (cs : List Cred) (h : ∀ c ∈ cs, c.Status ≠ "Active") :
    findActive cs = none := by
  induction cs with
  | nil => rfl
  | cons c rest ih =>
    have hc : c.Status ≠ "Active" := h c (List.mem_cons_self c rest)
    simp only [findActive, if_neg hc]
    exact ih fun x hx => h x (List.mem_cons_of_mem c hx)

theorem findActive_mem_active (cs : List Cred) (c : Cred) (h : findActive cs = some c) :
    c ∈ cs ∧ c.Status = "Active" := by
  induction cs with
  | nil => simp [findActive] at h
  | cons d rest ih =>
    by_cases hd : d.Status = "Active"
    · simp only [findActive, if_pos hd, Option.some.injEq] at h
      exact ⟨h ▸ List.mem_cons_self d rest, h ▸ hd⟩
    · simp only [findActive, if_neg hd] at h
      obtain ⟨hmem, hst⟩ := ih h
      exact ⟨List.mem_cons_of_mem d hmem, hst⟩

theorem findActive_isSome_of_exists (cs : List Cred)
    (h : ∃ c ∈ cs, c.Status = "Active") : ∃ c, findActive cs = some c := by
  induction cs with
  | nil => simp at h
  | cons d rest ih =>
    by_cases hd : d.Status = "Active"
    · exact ⟨d, by simp [findActive, hd]⟩
    · obtain ⟨c, hmem, hst⟩ := h
      rcases List.mem_cons.mp hmem with rfl | hmem
      · exact absurd hst hd
      · obtain ⟨c0, hc0⟩ := ih ⟨c, hmem, hst⟩
        exact ⟨c0, by simp [findActive, hd, hc0]⟩

/-- Claim C7: on every outbound credential-listing call, the ServiceName
keyword argument appears exactly when the filter value is set, and the
Marker keyword argument appears exactly when the cursor is set; each is
omitted entirely (not passed as a null value) when unset, and
get_credentials_for_user sends exactly that argument list. -/
theorem omit_unset_arguments (iam_client : Client) (user_name : String)
    (service_name marker : Option String) :
    get_credentials_for_user iam_client user_name service_name marker =
      iam_client (build_request user_name service_name marker)
    ∧ (∀ v, KwArg.ServiceName v ∈ build_request user_name service_name marker ↔
        service_name = some v)
    ∧ (∀ v, KwArg.Marker v ∈ build_request user_name service_name marker ↔
        marker = some v) := by
  refine ⟨get_credentials_eq_build iam_client user_name service_name marker, ?_, ?_⟩ <;>
    intro v <;> cases service_name <;> cases marker <;>
    simp [build_request, eq_comm]

/-- Claim C10: a ServiceName rule parameter present with the empty-string
value counts as set (only None is unset): the extracted filter is the
empty string and the outbound call passes the ServiceName argument with
that empty value instead of omitting it. -/
theorem empty_filter_is_passed (iam_client : Client) (user_name : String)
    (marker : Option String) :
    extract_service_name [("ServiceName", "")] = some ""
    ∧ KwArg.ServiceName "" ∈ build_request user_name (some "") marker
    ∧ get_credentials_for_user iam_client user_name (some "") marker =
        iam_client (build_request user_name (some "") marker) := by
  refine ⟨rfl, ?_, get_credentials_eq_build iam_client user_name (some "") marker⟩
  cases marker <;> simp [build_request]

/-- Claim C9: an error from the backing credential-listing call is
propagated unchanged: get_credentials_for_user returns the very same
error, and the evaluate_user loop at the failing iteration stops with
that same error after that single call, with no retry or translation. -/
theorem fetch_error_propagates (iam_client : Client) (user_name user_id : String)
    (service_name marker : Option String) (e : String) (fuel : Nat)
    (h : iam_client (build_request user_name service_name marker) = Except.error e) :
    get_credentials_for_user iam_client user_name service_name marker = Except.error e
    ∧ evaluate_user_from iam_client user_name user_id service_name (fuel + 1) marker =
        (some (Except.error e), [build_request user_name service_name marker]) := by
  constructor
  · rw [get_credentials_eq_build]; exact h
  · simp only [evaluate_user_from, get_credentials_eq_build, h]

def clientC9 : Client := fun _ => Except.error "boom"

theorem fetch_error_propagates_witness :
    get_credentials_for_user clientC9 "alice" none none = Except.error "boom"
    ∧ evaluate_user_from clientC9 "alice" "uid1" none 1 none =
        (some (Except.error "boom"), [build_request "alice" none none]) :=
  fetch_error_propagates clientC9 "alice" "uid1" none none "boom" 0 rfl

/-- Claim C4: whenever the page fetched at the current cursor contains an
Active credential, evaluate_user scans in returned order, stops at the
first Active one, and immediately returns NON_COMPLIANT with that
credential id in the annotation; the trace shows exactly the one fetch,
so no further credentials are scanned and no further pages are fetched
(the conclusion is independent of the credentials after the match and of
the page truncation flag). -/
theorem first_active_short_circuits (iam_client : Client) (user_name user_id : String)
    (service_name : Option String) (fuel : Nat) (marker : Option String)
    (p : Page) (pre post : List Cred) (cred : Cred)
    (hp : iam_client (build_request user_name service_name marker) = Except.ok p)
    (hsplit : p.ServiceSpecificCredentials = pre ++ cred :: post)
    (hpre : ∀ c ∈ pre, c.Status ≠ "Active")
    (hcred : cred.Status = "Active") :
    evaluate_user_from iam_client user_name user_id service_name (fuel + 1) marker =
      (some (Except.ok (activeCredEvaluation user_id cred.ServiceSpecificCredentialId)),
       [build_request user_name service_name marker]) := by
  simp only [evaluate_user_from, get_credentials_eq_build, hp, hsplit,
    findActive_split pre post cred hpre hcred]

def clientC4 : Client := fun _ =>
  Except.ok { ServiceSpecificCredentials :=
                [{ Status := "Inactive", ServiceSpecificCredentialId := "c0" },
                 { Status := "Active", ServiceSpecificCredentialId := "c1" },
                 { Status := "Active", ServiceSpecificCredentialId := "c2" }]
              IsTruncated := some true
              Marker := some "m2" }

theorem first_active_short_circuits_witness :
    evaluate_user_from clientC4 "alice" "uid1" none 5 none =
      (some (Except.ok (activeCredEvaluation "uid1" "c1")), [build_request "alice" none none]) :=
  first_active_short_circuits clientC4 "alice" "uid1" none 4 none
    { ServiceSpecificCredentials :=
        [{ Status := "Inactive", ServiceSpecificCredentialId := "c0" },
         { Status := "Active", ServiceSpecificCredentialId := "c1" },
         { Status := "Active", ServiceSpecificCredentialId := "c2" }]
      IsTruncated := some true
      Marker := some "m2" }
    [{ Status := "Inactive", ServiceSpecificCredentialId := "c0" }]
    [{ Status := "Active", ServiceSpecificCredentialId := "c2" }]
    { Status := "Active", ServiceSpecificCredentialId := "c1" }
    rfl rfl (by decide) rfl

/-- Claim C5: if the pagination loop terminates normally and none of the
pages actually fetched along its trace contains a credential whose
Status is Active (covering zero credentials and only non-Active
credentials), the returned evaluation is COMPLIANT with the fixed
no-active-credentials annotation. -/
theorem no_active_means_compliant (iam_client : Client) (user_name user_id : String)
    (service_name : Option String) (fuel : Nat) (marker : Option String)
    (ev : Evaluation) (trace : List Request)
    (hrun : evaluate_user_from iam_client user_name user_id service_name fuel marker =
      (some (Except.ok ev), trace))
    (hno : ∀ req ∈ trace, ∀ p, iam_client req = Except.ok p →
      ∀ c ∈ p.ServiceSpecificCredentials, c.Status ≠ "Active") :
    ev = noActiveEvaluation user_id := by
  induction fuel generalizing marker ev trace with
  | zero => simp [evaluate_user_from] at hrun
  | succ fuel ih =>
    rw [evaluate_user_from, get_credentials_eq_build] at hrun
    split at hrun
    case h_1 e heq => simp at hrun
    case h_2 credentials heq =>
      split at hrun
      case h_1 cred hfind =>
        simp only [Prod.mk.injEq, Option.some.injEq, Except.ok.injEq] at hrun
        obtain ⟨hmem, hact⟩ :=
          findActive_mem_active credentials.ServiceSpecificCredentials cred hfind
        have hreq : build_request user_name service_name marker ∈ trace := by
          rw [← hrun.2]
          exact List.mem_cons_self _ _
        exact absurd hact (hno _ hreq credentials heq cred hmem)
      case h_2 hfind =>
        split at hrun
        · split at hrun
          case h_1 m hm =>
            simp only [Prod.mk.injEq] at hrun
            obtain ⟨hfst, hsnd⟩ := hrun
            refine ih (some m) ev _ (Prod.ext hfst rfl) ?_
            intro req hreq q hq c hc
            refine hno req ?_ q hq c hc
            rw [← hsnd]
            exact List.mem_cons_of_mem _ hreq
          case h_2 hm => simp at hrun
        · simp only [Prod.mk.injEq, Option.some.injEq, Except.ok.injEq] at hrun
          exact hrun.1.symm

def pageC5 : Page :=
  { ServiceSpecificCredentials :=
      [{ Status := "Inactive", ServiceSpecificCredentialId := "c0" }]
    IsTruncated := none
    Marker := none }

def clientC5 : Client := fun _ => Except.ok pageC5

theorem no_active_means_compliant_witness :
    noActiveEvaluation "uid1" = noActiveEvaluation "uid1" :=
  no_active_means_compliant clientC5 "alice" "uid1" none 1 none
    (noActiveEvaluation "uid1") [build_request "alice" none none] rfl
    (by
      intro req hreq p hp c hc
      have hpeq : p = pageC5 := by
        cases hp
        rfl
      subst hpeq
      simp only [pageC5, List.mem_singleton] at hc
      subst hc
      decide)

/-- Claim C6: on a fetched page with no Active credential, if the page
has IsTruncated true the loop advances the cursor to that page's Marker
and continues with the next fetch, while a page whose IsTruncated key is
absent ends pagination exactly like a non-truncated page: the loop stops
after that single fetch and returns the COMPLIANT evaluation. -/
theorem pagination_advance_and_stop (iam_client : Client) (user_name user_id : String)
    (service_name : Option String) (fuel : Nat) (marker1 marker2 : Option String)
    (p1 p2 : Page) (m : String)
    (hp1 : iam_client (build_request user_name service_name marker1) = Except.ok p1)
    (hno1 : ∀ c ∈ p1.ServiceSpecificCredentials, c.Status ≠ "Active")
    (htr1 : p1.IsTruncated = some true)
    (hm1 : p1.Marker = some m)
    (hp2 : iam_client (build_request user_name service_name marker2) = Except.ok p2)
    (hno2 : ∀ c ∈ p2.ServiceSpecificCredentials, c.Status ≠ "Active")
    (htr2 : p2.IsTruncated = none) :
    evaluate_user_from iam_client user_name user_id service_name (fuel + 1) marker1 =
      ((evaluate_user_from iam_client user_name user_id service_name fuel (some m)).fst,
       build_request user_name service_name marker1 ::
         (evaluate_user_from iam_client user_name user_id service_name fuel (some m)).snd)
    ∧ evaluate_user_from iam_client user_name user_id service_name (fuel + 1) marker2 =
      (some (Except.ok (noActiveEvaluation user_id)),
       [build_request user_name service_name marker2]) := by
  constructor
  · simp [evaluate_user_from, get_credentials_eq_build, hp1,
      findActive_eq_none p1.ServiceSpecificCredentials hno1, htr1, hm1]
  · simp [evaluate_user_from, get_credentials_eq_build, hp2,
      findActive_eq_none p2.ServiceSpecificCredentials hno2, htr2]

def clientC6 : Client := fun req =>
  if req = build_request "alice" none (some "m2") then
    Except.ok { ServiceSpecificCredentials := []
                IsTruncated := none
                Marker := none }
  else
    Except.ok { ServiceSpecificCredentials :=
                  [{ Status := "Inactive", ServiceSpecificCredentialId := "c0" }]
                IsTruncated := some true
                Marker := some "m2" }

theorem pagination_advance_and_stop_witness :
    evaluate_user_from clientC6 "alice" "uid1" none 2 none =
      ((evaluate_user_from clientC6 "alice" "uid1" none 1 (some "m2")).fst,
       build_request "alice" none none ::
         (evaluate_user_from clientC6 "alice" "uid1" none 1 (some "m2")).snd)
    ∧ evaluate_user_from clientC6 "alice" "uid1" none 2 (some "m2") =
      (some (Except.ok (noActiveEvaluation "uid1")), [build_request "alice" none (some "m2")]) :=
  pagination_advance_and_stop clientC6 "alice" "uid1" none 1 none (some "m2")
    { ServiceSpecificCredentials :=
        [{ Status := "Inactive", ServiceSpecificCredentialId := "c0" }]
      IsTruncated := some true
      Marker := some "m2" }
    { ServiceSpecificCredentials := [], IsTruncated := none, Marker := none }
    "m2" rfl (by decide) rfl rfl rfl (by decide) rfl

/-- Claim C8: the number of fetch calls evaluate_user makes is exactly
one when the first page contains an Active credential (regardless of its
truncation state, so even when more pages exist), and exactly two when
the first page holds only inactive credentials, is truncated, and the
second page contains an Active credential. -/
theorem fetch_call_counts (client1 client2 : Client) (user_name user_id : String)
    (service_name : Option String) (fuel : Nat) (p1 q1 q2 : Page) (m : String)
    (h1 : client1 (build_request user_name service_name none) = Except.ok p1)
    (hact1 : ∃ c ∈ p1.ServiceSpecificCredentials, c.Status = "Active")
    (h2 : client2 (build_request user_name service_name none) = Except.ok q1)
    (hno : ∀ c ∈ q1.ServiceSpecificCredentials, c.Status ≠ "Active")
    (htr : q1.IsTruncated = some true)
    (hm : q1.Marker = some m)
    (h3 : client2 (build_request user_name service_name (some m)) = Except.ok q2)
    (hact2 : ∃ c ∈ q2.ServiceSpecificCredentials, c.Status = "Active") :
    (evaluate_user_calls client1 user_name user_id service_name (fuel + 1)).length = 1
    ∧ (evaluate_user_calls client2 user_name user_id service_name (fuel + 2)).length = 2 := by
  constructor
  · obtain ⟨c1, hc1⟩ := findActive_isSome_of_exists p1.ServiceSpecificCredentials hact1
    simp [evaluate_user_calls, evaluate_user_from, get_credentials_eq_build, h1, hc1]
  · obtain ⟨c2, hc2⟩ := findActive_isSome_of_exists q2.ServiceSpecificCredentials hact2
    simp [evaluate_user_calls, evaluate_user_from, get_credentials_eq_build, h2,
      findActive_eq_none q1.ServiceSpecificCredentials hno, htr, hm, h3, hc2]

def emptyPage : Page :=
  { ServiceSpecificCredentials := [], IsTruncated := none, Marker := none }

def pageC8a : Page :=
  { ServiceSpecificCredentials :=
      [{ Status := "Inactive", ServiceSpecificCredentialId := "c0" }]
    IsTruncated := some true
    Marker := some "m2" }

def pageC8b : Page :=
  { ServiceSpecificCredentials :=
      [{ Status := "Active", ServiceSpecificCredentialId := "c1" }]
    IsTruncated := some false
    Marker := none }

def clientC8a : Client := fun _ => Except.ok pageC8b

def clientC8b : Client := fun req =>
  if req = build_request "alice" none (some "m2") then Except.ok pageC8b
  else Except.ok pageC8a

theorem fetch_call_counts_witness :
    (evaluate_user_calls clientC8a "alice" "uid1" none 1).length = 1
    ∧ (evaluate_user_calls clientC8b "alice" "uid1" none 2).length = 2 :=
  fetch_call_counts clientC8a clientC8b "alice" "uid1" none 0 pageC8b pageC8a pageC8b "m2"
    rfl ⟨{ Status := "Active", ServiceSpecificCredentialId := "c1" }, by decide, rfl⟩
    rfl (by decide) rfl rfl rfl
    ⟨{ Status := "Active", ServiceSpecificCredentialId := "c1" }, by decide, rfl⟩

/-- Claim C2: when evaluating one principal raises an error, the
orchestrator appends for that principal the synthesized NON_COMPLIANT
evaluation carrying the fixed check-logs annotation, that principal's id
as resourceId and the constant resource type, while the principals
before and after it keep their normally computed evaluations. -/
theorem per_user_failure_isolated (iam_client : Client) (service_name : Option String)
    (fuel : Nat) (us1 us2 : List User) (u : User) (e : String)
    (evs1 evs2 : List Evaluation)
    (hu : evaluate_user iam_client u.UserName u.UserId service_name fuel =
      some (Except.error e))
    (h1 : process_users iam_client service_name fuel us1 = some evs1)
    (h2 : process_users iam_client service_name fuel us2 = some evs2) :
    process_users iam_client service_name fuel (us1 ++ u :: us2) =
      some (evs1 ++ handle_credential_check_error e u.UserId :: evs2)
    ∧ handle_credential_check_error e u.UserId =
      { complianceType := ComplianceType.NON_COMPLIANT
        resourceId := u.UserId
        resourceType := RESOURCE_TYPE
        annot := "Encountered error checking credentials. Check custom rule lambda logs" } := by
  refine ⟨?_, rfl⟩
  induction us1 generalizing evs1 with
  | nil =>
    simp only [process_users] at h1
    obtain rfl : evs1 = [] := by simpa using h1.symm
    simp [process_users, hu, h2]
  | cons v vs ih =>
    simp only [process_users] at h1
    split at h1
    · exact absurd h1 (by simp)
    case h_2 ev hev =>
      rcases hvs : process_users iam_client service_name fuel vs with _ | rest
      · rw [hvs] at h1
        simp at h1
      · rw [hvs] at h1
        simp only [hvs, Option.map_some'] at h1
        obtain rfl : evs1 = ev :: rest := by simpa using h1.symm
        have htail := ih rest hvs
        simp [process_users, hev, htail]
    case h_3 e2 hev =>
      rcases hvs : process_users iam_client service_name fuel vs with _ | rest
      · rw [hvs] at h1
        simp at h1
      · rw [hvs] at h1
        simp only [hvs, Option.map_some'] at h1
        obtain rfl : evs1 = handle_credential_check_error e2 v.UserId :: rest := by
          simpa using h1.symm
        have htail := ih rest hvs
        simp [process_users, hev, htail]

def clientC2 : Client := fun req =>
  if req = [KwArg.UserName "bad"] then Except.error "boom" else Except.ok emptyPage

theorem per_user_failure_isolated_witness :
    process_users clientC2 none 1
        [{ UserId := "g1", UserName := "alice" },
         { UserId := "b1", UserName := "bad" },
         { UserId := "g2", UserName := "carol" }] =
      some [noActiveEvaluation "g1",
        handle_credential_check_error "boom" "b1",
        noActiveEvaluation "g2"]
    ∧ handle_credential_check_error "boom" "b1" =
      { complianceType := ComplianceType.NON_COMPLIANT
        resourceId := "b1"
        resourceType := RESOURCE_TYPE
        annot := "Encountered error checking credentials. Check custom rule lambda logs" } :=
  per_user_failure_isolated clientC2 none 1
    [{ UserId := "g1", UserName := "alice" }]
    [{ UserId := "g2", UserName := "carol" }]
    { UserId := "b1", UserName := "bad" } "boom"
    [noActiveEvaluation "g1"] [noActiveEvaluation "g2"]
    rfl rfl rfl

theorem process_users_length (iam_client : Client) (service_name : Option String)
    (fuel : Nat) (us : List User) (evs : List Evaluation)
    (h : process_users iam_client service_name fuel us = some evs) :
    evs.length = us.length := by
  induction us generalizing evs with
  | nil =>
    simp only [process_users, Option.some.injEq] at h
    simp [← h]
  | cons v vs ih =>
    simp only [process_users] at h
    split at h
    · exact absurd h (by simp)
    · rcases hvs : process_users iam_client service_name fuel vs with _ | rest
      · rw [hvs] at h
        simp at h
      · rw [hvs] at h
        simp only [Option.map_some', Option.some.injEq] at h
        simp [← h, ih rest hvs]
    · rcases hvs : process_users iam_client service_name fuel vs with _ | rest
      · rw [hvs] at h
        simp at h
      · rw [hvs] at h
        simp only [Option.map_some', Option.some.injEq] at h
        simp [← h, ih rest hvs]

theorem evaluate_periodic_pages_length (iam_client : Client) (service_name : Option String)
    (fuel : Nat) (pages : List (Except String (List User))) (out : List Evaluation)
    (h : evaluate_periodic_pages iam_client service_name fuel pages = some (Except.ok out)) :
    out.length = (enumerated_principals pages).length := by
  induction pages generalizing out with
  | nil =>
    simp only [evaluate_periodic_pages, Option.some.injEq, Except.ok.injEq] at h
    simp [← h, enumerated_principals]
  | cons page pages ih =>
    cases page with
    | error e => simp [evaluate_periodic_pages] at h
    | ok users =>
      simp only [evaluate_periodic_pages] at h
      split at h
      · exact absurd h (by simp)
      case h_2 evs hevs =>
        split at h
        · exact absurd h (by simp)
        · exact absurd h (by simp)
        case h_3 rest hrest =>
          simp only [Option.some.injEq, Except.ok.injEq] at h
          rw [← h, enumerated_principals]
          simp [List.length_append, process_users_length iam_client service_name fuel users evs hevs,
            ih rest hrest]

/-- Claim C1: whenever principal enumeration succeeds, evaluate_periodic
returns exactly one evaluation per enumerated principal — the output
length equals the number of users encountered, whatever the outcome of
each per-user credential check — and in particular the empty principal
set yields the empty list rather than an error. -/
theorem one_verdict_per_principal (valid_rule_parameters : List (String × String))
    (iam_client : Client) (user_pages : List (Except String (List User)))
    (fuel : Nat) (out : List Evaluation)
    (h : evaluate_periodic valid_rule_parameters iam_client user_pages fuel =
      some (Except.ok out)) :
    out.length = (enumerated_principals user_pages).length
    ∧ evaluate_periodic valid_rule_parameters iam_client [] fuel =
      some (Except.ok ([] : List Evaluation)) :=
  ⟨evaluate_periodic_pages_length iam_client
      (extract_service_name valid_rule_parameters) fuel user_pages out h, rfl⟩

def clientC1 : Client := fun _ => Except.ok emptyPage

theorem one_verdict_per_principal_witness :
    ([noActiveEvaluation "u1", noActiveEvaluation "u2"] : List Evaluation).length =
      (enumerated_principals
        [Except.ok [{ UserId := "u1", UserName := "alice" },
                    { UserId := "u2", UserName := "bob" }]]).length
    ∧ evaluate_periodic [] clientC1 [] 1 = some (Except.ok ([] : List Evaluation)) := by
  have h := one_verdict_per_principal [] clientC1
    [Except.ok [{ UserId := "u1", UserName := "alice" },
                { UserId := "u2", UserName := "bob" }]] 1
    [noActiveEvaluation "u1", noActiveEvaluation "u2"] rfl
  exact ⟨h.1, h.2⟩

/-- Claim C3: when a page of the principal enumeration itself fails, the
whole run of evaluate_periodic ends with that very error re-raised;
no evaluation list, not even a partial one, is returned. -/
theorem enumeration_failure_reraise (valid_rule_parameters : List (String × String))
    (iam_client : Client) (fuel : Nat) (okpages : List (List User)) (e : String)
    (rest : List (Except String (List User)))
    (h : ∀ us ∈ okpages,
      (process_users iam_client (extract_service_name valid_rule_parameters) fuel us).isSome =
        true) :
    evaluate_periodic valid_rule_parameters iam_client
        (okpages.map Except.ok ++ Except.error e :: rest) fuel =
      some (Except.error e) := by
  rw [evaluate_periodic]
  revert h
  induction okpages with
  | nil =>
    intro h
    rfl
  | cons us ups ih =>
    intro h
    obtain ⟨evs, hevs⟩ := Option.isSome_iff_exists.mp (h us (List.mem_cons_self us ups))
    have hrec := ih fun x hx => h x (List.mem_cons_of_mem us hx)
    simp only [List.map_cons, List.cons_append, evaluate_periodic_pages, hevs,
      List.append_eq, hrec]

def clientC3 : Client := fun _ => Except.ok emptyPage

theorem enumeration_failure_reraise_witness :
    evaluate_periodic [] clientC3
        (([[{ UserId := "u1", UserName := "alice" }]].map Except.ok) ++
          Except.error "enumfail" :: []) 1 =
      some (Except.error "enumfail") :=
  enumeration_failure_reraise [] clientC3 1
    [[{ UserId := "u1", UserName := "alice" }]] "enumfail" []
    (by
      intro us hus
      simp only [List.mem_singleton] at hus
      subst hus
      rfl)

end IamRule
